import Mathlib

/-!
Verification of the per-identity rate limiters in `src/task02.py`.

The source defines two classes:

* `SlidingWindowRateLimiter` — keeps, per user id, a deque of accepted
  timestamps; `_cleanup_window` pops expired timestamps (those
  `<= current_time - window_size`) from the front and deletes the key when
  the deque empties; `can_send_message` cleans up and compares the count
  with `max_requests`; `record_message` appends the current time on
  success; `time_until_next_allowed` reads the oldest stored timestamp.

* `ThrottlingRateLimiter` — keeps, per user id, the last accepted
  timestamp; `can_send_message` checks `now - last >= min_interval`;
  `record_message` overwrites the timestamp on success;
  `time_until_next_allowed` reads it.

The Python methods read the clock with `time.time()`; following the spec's
time-source injection, every operation here takes the current time `now`
as an explicit argument.  Timestamps are modelled as rationals, states as
functions from user id to the optional per-user data (Python dict lookup).
Each operation returns its result paired with the state after the call.
-/

namespace Task02

/-- Per-user state of the sliding-window limiter: the `user_messages`
dict, mapping a user id to the deque of still-stored timestamps
(`none` = key absent, as after `del`). -/
abbrev SWState := String → Option (List ℚ)

/-- Per-user state of the throttling limiter: the `user_last_message`
dict, mapping a user id to the last accepted timestamp. -/
abbrev ThState := String → Option ℚ

/-- The dict with no keys (fresh `{}`). -/
def emptySW : SWState := fun _ => none

/-- The dict with no keys (fresh `{}`). -/
def emptyTh : ThState := fun _ => none

/-- Python dict assignment / deletion at one key. -/
def updateSW (st : SWState) (u : String) (v : Option (List ℚ)) : SWState :=
  fun w => if w = u then v else st w

/-- Python dict assignment at one key. -/
def updateTh (st : ThState) (u : String) (v : Option ℚ) : ThState :=
  fun w => if w = u then v else st w

/-- Configuration of `SlidingWindowRateLimiter.__init__`: `window_size`
and `max_requests` are stored unchecked. -/
structure SlidingWindowRateLimiter where
  window_size : ℚ
  max_requests : ℤ

/-- `SlidingWindowRateLimiter.__init__`: stores the parameters with no
validation and always succeeds (the dict starts empty, tracked
separately as `emptySW`). -/
def SlidingWindowRateLimiter.init (window_size : ℚ) (max_requests : ℤ) :
    SlidingWindowRateLimiter :=
  ⟨window_size, max_requests⟩

namespace SlidingWindowRateLimiter

/-- The loop condition of `_cleanup_window`: timestamp `t` is expired at
`now` when `t <= now - window_size`. -/
def expired (L : SlidingWindowRateLimiter) (now t : ℚ) : Bool :=
  decide (t ≤ now - L.window_size)

/-- `_cleanup_window(user_id, current_time)`: if the key is present, pop
expired timestamps from the front (`popleft` while the head satisfies
`<= current_time - window_size`), then delete the key if the deque is
empty. -/
def cleanup_window (L : SlidingWindowRateLimiter) (st : SWState)
    (user_id : String) (now : ℚ) : SWState :=
  match st user_id with
  | none => st
  | some q =>
      let q' := q.dropWhile (L.expired now)
      if q' = [] then updateSW st user_id none else updateSW st user_id (some q')

/-- `can_send_message(user_id)`: clean up, then compare the stored count
(`0` when the key is absent) with `max_requests`; returns the decision
together with the mutated dict. -/
def can_send_message (L : SlidingWindowRateLimiter) (st : SWState)
    (user_id : String) (now : ℚ) : Bool × SWState :=
  let st' := cleanup_window L st user_id now
  (decide ((((st' user_id).getD []).length : ℤ) < L.max_requests), st')

/-- `record_message(user_id)`: if `can_send_message` allows, append `now`
to the user's deque (creating it when absent) and return `True`;
otherwise return `False`. -/
def record_message (L : SlidingWindowRateLimiter) (st : SWState)
    (user_id : String) (now : ℚ) : Bool × SWState :=
  let r := can_send_message L st user_id now
  if r.1 then
    let q := (r.2 user_id).getD []
    (true, updateSW r.2 user_id (some (q ++ [now])))
  else
    (false, r.2)

/-- `time_until_next_allowed(user_id)`: `0.0` when the key is absent or
the deque is empty, else `max(0, window_size - (now - oldest))` where
`oldest` is the front of the deque; reads the dict without mutating it. -/
def time_until_next_allowed (L : SlidingWindowRateLimiter) (st : SWState)
    (user_id : String) (now : ℚ) : ℚ × SWState :=
  match st user_id with
  | none => (0, st)
  | some [] => (0, st)
  | some (t0 :: _) => (max 0 (L.window_size - (now - t0)), st)

/-- A sequence of `record_message` calls for one user at the given
times, oldest first; returns that call's results in order and the final
dict. -/
def recordList (L : SlidingWindowRateLimiter) (st : SWState)
    (user_id : String) : List ℚ → List Bool × SWState
  | [] => ([], st)
  | t :: ts =>
      let r := record_message L st user_id t
      let rest := recordList L r.2 user_id ts
      (r.1 :: rest.1, rest.2)

end SlidingWindowRateLimiter

/-- Configuration of `ThrottlingRateLimiter.__init__`: `min_interval` is
stored unchecked. -/
structure ThrottlingRateLimiter where
  min_interval : ℚ

/-- `ThrottlingRateLimiter.__init__`: stores the parameter with no
validation and always succeeds (the dict starts empty, tracked
separately as `emptyTh`). -/
def ThrottlingRateLimiter.init (min_interval : ℚ) : ThrottlingRateLimiter :=
  ⟨min_interval⟩

namespace ThrottlingRateLimiter

/-- `can_send_message(user_id)`: `True` when the key is absent or
`now - last >= min_interval`; reads the dict without mutating it. -/
def can_send_message (L : ThrottlingRateLimiter) (st : ThState)
    (user_id : String) (now : ℚ) : Bool × ThState :=
  match st user_id with
  | none => (true, st)
  | some t => (decide (L.min_interval ≤ now - t), st)

/-- `record_message(user_id)`: if `can_send_message` allows, set the
user's last timestamp to `now` and return `True`; otherwise return
`False` with the dict untouched. -/
def record_message (L : ThrottlingRateLimiter) (st : ThState)
    (user_id : String) (now : ℚ) : Bool × ThState :=
  if (can_send_message L st user_id now).1 then
    (true, updateTh st user_id (some now))
  else
    (false, st)

/-- `time_until_next_allowed(user_id)`: `0.0` when the key is absent,
else `max(0, min_interval - (now - last))`; reads the dict without
mutating it. -/
def time_until_next_allowed (L : ThrottlingRateLimiter) (st : ThState)
    (user_id : String) (now : ℚ) : ℚ × ThState :=
  match st user_id with
  | none => (0, st)
  | some t => (max 0 (L.min_interval - (now - t)), st)

/-- A sequence of `record_message` calls for one user at the given
times, oldest first. -/
def recordList (L : ThrottlingRateLimiter) (st : ThState)
    (user_id : String) : List ℚ → List Bool × ThState
  | [] => ([], st)
  | t :: ts =>
      let r := record_message L st user_id t
      let rest := recordList L r.2 user_id ts
      (r.1 :: rest.1, rest.2)

end ThrottlingRateLimiter

/-! ### Invariants (spec §3, data model of the sliding-window limiter) -/

/-- Structural invariant of the `user_messages` dict: every present key
holds a nonempty, non-decreasing deque. -/
def SWInv (st : SWState) : Prop :=
  ∀ u q, st u = some q → q ≠ [] ∧ q.Chain' (· ≤ ·)

/-- All stored timestamps are at most `now` (a non-decreasing clock has
reached `now`, and every stored timestamp was read from it). -/
def SWUpto (st : SWState) (now : ℚ) : Prop :=
  ∀ u q, st u = some q → ∀ t ∈ q, t ≤ now

/-! ### Helper lemmas -/

theorem updateSW_self (st : SWState) (u : String) (v : Option (List ℚ)) :
    updateSW st u v u = v := by
  simp [updateSW]

theorem updateSW_ne (st : SWState) (u : String) (v : Option (List ℚ))
    (w : String) (h : w ≠ u) : updateSW st u v w = st w := by
  simp [updateSW, h]

theorem updateTh_self (st : ThState) (u : String) (v : Option ℚ) :
    updateTh st u v u = v := by
  simp [updateTh]

theorem updateTh_ne (st : ThState) (u : String) (v : Option ℚ)
    (w : String) (h : w ≠ u) : updateTh st u v w = st w := by
  simp [updateTh, h]

theorem dropWhile_dropWhile (p : ℚ → Bool) :
    ∀ l : List ℚ, (l.dropWhile p).dropWhile p = l.dropWhile p
  | [] => rfl
  | a :: l => by
    by_cases h : p a <;> simp [List.dropWhile_cons, h, dropWhile_dropWhile p l]

theorem updateSW_updateSW (st : SWState) (u : String)
    (v w : Option (List ℚ)) :
    updateSW (updateSW st u v) u w = updateSW st u w := by
  funext x
  by_cases hx : x = u <;> simp [updateSW, hx]

namespace SlidingWindowRateLimiter

theorem cleanup_window_of_none (L : SlidingWindowRateLimiter) (st : SWState)
    (u : String) (now : ℚ) (h : st u = none) :
    cleanup_window L st u now = st := by
  unfold cleanup_window
  simp [h]

theorem cleanup_window_of_some (L : SlidingWindowRateLimiter) (st : SWState)
    (u : String) (now : ℚ) (q : List ℚ) (h : st u = some q) :
    cleanup_window L st u now =
      if q.dropWhile (L.expired now) = [] then updateSW st u none
      else updateSW st u (some (q.dropWhile (L.expired now))) := by
  unfold cleanup_window
  simp only [h]

theorem cleanup_window_apply_ne (L : SlidingWindowRateLimiter) (st : SWState)
    (u : String) (now : ℚ) (v : String) (h : v ≠ u) :
    cleanup_window L st u now v = st v := by
  cases hu : st u with
  | none => rw [cleanup_window_of_none L st u now hu]
  | some q =>
      rw [cleanup_window_of_some L st u now q hu]
      by_cases hq : q.dropWhile (L.expired now) = [] <;>
        simp [hq, updateSW_ne _ _ _ _ h]

theorem cleanup_window_apply_self (L : SlidingWindowRateLimiter) (st : SWState)
    (u : String) (now : ℚ) :
    cleanup_window L st u now u =
      match st u with
      | none => none
      | some q =>
          if q.dropWhile (L.expired now) = [] then none
          else some (q.dropWhile (L.expired now)) := by
  cases hu : st u with
  | none => rw [cleanup_window_of_none L st u now hu, hu]
  | some q =>
      rw [cleanup_window_of_some L st u now q hu]
      by_cases hq : q.dropWhile (L.expired now) = [] <;>
        simp [hq, updateSW_self]

theorem can_send_message_fst (L : SlidingWindowRateLimiter) (st : SWState)
    (u : String) (now : ℚ) :
    (can_send_message L st u now).1 =
      decide (((((st u).getD []).dropWhile (L.expired now)).length : ℤ) <
        L.max_requests) := by
  show decide _ = decide _
  congr 1
  rw [cleanup_window_apply_self]
  cases hu : st u with
  | none => simp
  | some q =>
      by_cases hq : q.dropWhile (L.expired now) = [] <;> simp [hq]

theorem can_send_message_snd (L : SlidingWindowRateLimiter) (st : SWState)
    (u : String) (now : ℚ) :
    (can_send_message L st u now).2 = cleanup_window L st u now := rfl

theorem record_message_fst (L : SlidingWindowRateLimiter) (st : SWState)
    (u : String) (now : ℚ) :
    (record_message L st u now).1 = (can_send_message L st u now).1 := by
  unfold record_message
  by_cases h : (can_send_message L st u now).1 <;> simp [h]

theorem record_message_of_reject (L : SlidingWindowRateLimiter) (st : SWState)
    (u : String) (now : ℚ) (h : (can_send_message L st u now).1 = false) :
    record_message L st u now = (false, cleanup_window L st u now) := by
  unfold record_message
  simp [h, can_send_message_snd]

theorem record_message_of_accept (L : SlidingWindowRateLimiter) (st : SWState)
    (u : String) (now : ℚ) (h : (can_send_message L st u now).1 = true) :
    record_message L st u now =
      (true, updateSW (cleanup_window L st u now) u
        (some ((cleanup_window L st u now u).getD [] ++ [now]))) := by
  unfold record_message
  simp [h, can_send_message_snd]

theorem record_message_apply_ne (L : SlidingWindowRateLimiter) (st : SWState)
    (u : String) (now : ℚ) (v : String) (h : v ≠ u) :
    (record_message L st u now).2 v = st v := by
  by_cases hc : (can_send_message L st u now).1
  · rw [record_message_of_accept L st u now hc]
    simp [updateSW_ne _ _ _ _ h, cleanup_window_apply_ne _ _ _ _ _ h]
  · rw [record_message_of_reject L st u now (by simpa using hc)]
    simp [cleanup_window_apply_ne _ _ _ _ _ h]

theorem cleanup_window_eq_self (L : SlidingWindowRateLimiter) (st : SWState)
    (u : String) (now : ℚ) (q : List ℚ)
    (hq : st u = if q = [] then none else some q)
    (hfresh : ∀ t ∈ q, L.expired now t = false) :
    cleanup_window L st u now = st := by
  cases hql : q with
  | nil =>
      rw [hql, if_pos rfl] at hq
      exact cleanup_window_of_none L st u now hq
  | cons h0 q0 =>
      rw [hql, if_neg (List.cons_ne_nil h0 q0)] at hq
      rw [cleanup_window_of_some L st u now _ hq]
      have h0f : L.expired now h0 = false := by
        apply hfresh; rw [hql]; exact List.mem_cons_self _ _
      simp only [List.dropWhile_cons, h0f, Bool.false_eq_true, if_false]
      rw [if_neg (List.cons_ne_nil h0 q0)]
      funext w
      by_cases hw : w = u
      · subst hw; rw [updateSW_self, hq]
      · exact updateSW_ne _ _ _ _ hw

theorem cleanup_window_idem (L : SlidingWindowRateLimiter) (st : SWState)
    (u : String) (now : ℚ) :
    cleanup_window L (cleanup_window L st u now) u now =
      cleanup_window L st u now := by
  cases hu : st u with
  | none =>
      have h1 : cleanup_window L st u now = st := cleanup_window_of_none L st u now hu
      rw [h1, h1]
  | some q =>
      rw [cleanup_window_of_some L st u now q hu]
      by_cases hq : q.dropWhile (L.expired now) = []
      · rw [if_pos hq]
        exact cleanup_window_of_none L _ u now (updateSW_self st u none)
      · rw [if_neg hq]
        rw [cleanup_window_of_some L _ u now _ (updateSW_self st u _)]
        simp only [dropWhile_dropWhile, hq, if_false]
        exact updateSW_updateSW st u _ _

theorem expired_eq_false_iff (L : SlidingWindowRateLimiter) (now t : ℚ) :
    L.expired now t = false ↔ now - L.window_size < t := by
  simp [expired, not_le]

theorem expired_eq_true_iff (L : SlidingWindowRateLimiter) (now t : ℚ) :
    L.expired now t = true ↔ t ≤ now - L.window_size := by
  simp [expired]

theorem fresh_of_mem_dropWhile (L : SlidingWindowRateLimiter) (now : ℚ) :
    ∀ q : List ℚ, q.Pairwise (· ≤ ·) →
      ∀ t ∈ q.dropWhile (L.expired now), now - L.window_size < t := by
  intro q
  induction q with
  | nil => intro _ t ht; simp at ht
  | cons h0 q0 ih =>
      intro hpw t ht
      rw [List.pairwise_cons] at hpw
      by_cases h0e : L.expired now h0
      · rw [List.dropWhile_cons_of_pos h0e] at ht
        exact ih hpw.2 t ht
      · rw [List.dropWhile_cons_of_neg h0e] at ht
        have hfresh : now - L.window_size < h0 :=
          (expired_eq_false_iff L now h0).mp (by simpa using h0e)
        rcases List.mem_cons.mp ht with rfl | hmem
        · exact hfresh
        · exact lt_of_lt_of_le hfresh (hpw.1 t hmem)

theorem getD_if_list (q : List ℚ) :
    ((if q = [] then none else some q) : Option (List ℚ)).getD [] = q := by
  by_cases h : q = [] <;> simp [h]

theorem dropWhile_eq_self_of_all (p : ℚ → Bool) (l : List ℚ)
    (h : ∀ t ∈ l, p t = false) : l.dropWhile p = l := by
  cases l with
  | nil => rfl
  | cons a l =>
      exact List.dropWhile_cons_of_neg (by simp [h a (List.mem_cons_self a l)])

/-- If a user starts with deque `q` (absent when empty) and every record
time keeps every involved timestamp inside the window, then a run of
`record_message` calls accepts every one of them and ends with the deque
`q ++ ts`, leaving other users untouched. -/
theorem recordList_fills (L : SlidingWindowRateLimiter) (u : String) :
    ∀ (ts : List ℚ) (st : SWState) (q : List ℚ),
      st u = (if q = [] then none else some q) →
      (q ++ ts).Pairwise (· ≤ ·) →
      (∀ s ∈ ts, ∀ t ∈ q ++ ts, L.expired s t = false) →
      ((q.length : ℤ) + ts.length ≤ L.max_requests) →
      (recordList L st u ts).1 = List.replicate ts.length true ∧
      (recordList L st u ts).2 u =
        (if q ++ ts = [] then none else some (q ++ ts)) ∧
      (∀ v, v ≠ u → (recordList L st u ts).2 v = st v) := by
  intro ts
  induction ts with
  | nil =>
      intro st q hq hpw hfresh hlen
      refine ⟨rfl, ?_, fun v hv => rfl⟩
      simpa using hq
  | cons s ts' ih =>
      intro st q hq hpw hfresh hlen
      have hclean : cleanup_window L st u s = st :=
        cleanup_window_eq_self L st u s q hq (fun t ht =>
          hfresh s (List.mem_cons_self s ts') t (List.mem_append_left _ ht))
      have hcan : (can_send_message L st u s).1 = true := by
        rw [can_send_message_fst, hq, getD_if_list,
          dropWhile_eq_self_of_all _ q (fun t ht =>
            hfresh s (List.mem_cons_self s ts') t (List.mem_append_left _ ht))]
        simp only [decide_eq_true_eq]
        simp only [List.length_cons] at hlen
        push_cast at hlen ⊢
        omega
      have hrec : record_message L st u s =
          (true, updateSW st u (some (q ++ [s]))) := by
        rw [record_message_of_accept L st u s hcan, hclean, hq, getD_if_list]
      have key : recordList L st u (s :: ts') =
          ((record_message L st u s).1 ::
              (recordList L (record_message L st u s).2 u ts').1,
            (recordList L (record_message L st u s).2 u ts').2) := rfl
      have hlist : (q ++ [s]) ++ ts' = q ++ (s :: ts') := by
        rw [List.append_assoc, List.singleton_append]
      obtain ⟨ih1, ih2, ih3⟩ :=
        ih (updateSW st u (some (q ++ [s]))) (q ++ [s])
          (by rw [updateSW_self, if_neg (by simp)])
          (by rw [hlist]; exact hpw)
          (by
            intro s' hs' t ht
            rw [hlist] at ht
            exact hfresh s' (List.mem_cons_of_mem _ hs') t ht)
          (by
            simp only [List.length_cons] at hlen
            simp only [List.length_append, List.length_singleton]
            push_cast at hlen ⊢
            omega)
      rw [key, hrec]
      refine ⟨?_, ?_, ?_⟩
      · simp only [List.length_cons, List.replicate_succ]
        rw [ih1]
      · rw [ih2, hlist]
      · intro v hv
        rw [ih3 v hv, updateSW_ne _ _ _ _ hv]

end SlidingWindowRateLimiter

namespace ThrottlingRateLimiter

theorem th_can_send_fst (L : ThrottlingRateLimiter) (st : ThState)
    (u : String) (now : ℚ) :
    (can_send_message L st u now).1 =
      match st u with
      | none => true
      | some t => decide (L.min_interval ≤ now - t) := by
  cases hu : st u <;> simp [can_send_message, hu]

theorem th_can_send_snd (L : ThrottlingRateLimiter) (st : ThState)
    (u : String) (now : ℚ) : (can_send_message L st u now).2 = st := by
  cases hu : st u <;> simp [can_send_message, hu]

theorem th_record_fst (L : ThrottlingRateLimiter) (st : ThState)
    (u : String) (now : ℚ) :
    (record_message L st u now).1 = (can_send_message L st u now).1 := by
  unfold record_message
  by_cases h : (can_send_message L st u now).1 <;> simp [h]

theorem th_record_of_accept (L : ThrottlingRateLimiter) (st : ThState)
    (u : String) (now : ℚ) (h : (can_send_message L st u now).1 = true) :
    record_message L st u now = (true, updateTh st u (some now)) := by
  unfold record_message
  simp [h]

theorem th_record_of_reject (L : ThrottlingRateLimiter) (st : ThState)
    (u : String) (now : ℚ) (h : (can_send_message L st u now).1 = false) :
    record_message L st u now = (false, st) := by
  unfold record_message
  simp [h]

theorem th_record_apply_ne (L : ThrottlingRateLimiter) (st : ThState)
    (u : String) (now : ℚ) (v : String) (h : v ≠ u) :
    (record_message L st u now).2 v = st v := by
  by_cases hc : (can_send_message L st u now).1
  · rw [th_record_of_accept L st u now hc]
    simp [updateTh_ne _ _ _ _ h]
  · rw [th_record_of_reject L st u now (by simpa using hc)]

end ThrottlingRateLimiter

namespace SlidingWindowRateLimiter

theorem time_until_next_allowed_snd (L : SlidingWindowRateLimiter)
    (st : SWState) (u : String) (now : ℚ) :
    (L.time_until_next_allowed st u now).2 = st := by
  unfold time_until_next_allowed
  cases hu : st u with
  | none => rfl
  | some q => cases q <;> rfl

theorem cleanup_window_props (L : SlidingWindowRateLimiter) (st : SWState)
    (u : String) (now : ℚ) (hinv : SWInv st) (hup : SWUpto st now) :
    SWInv (L.cleanup_window st u now) ∧
    SWUpto (L.cleanup_window st u now) now ∧
    (∀ q, (L.cleanup_window st u now) u = some q →
      ∀ t ∈ q, now - L.window_size < t) := by
  refine ⟨?_, ?_, ?_⟩
  · intro v q hv
    by_cases hvu : v = u
    · subst hvu
      cases hu : st v with
      | none =>
          rw [cleanup_window_of_none L st v now hu, hu] at hv
          exact Option.noConfusion hv
      | some q0 =>
          rw [cleanup_window_of_some L st v now q0 hu] at hv
          by_cases hd : q0.dropWhile (L.expired now) = []
          · rw [if_pos hd, updateSW_self] at hv
            exact Option.noConfusion hv
          · rw [if_neg hd, updateSW_self] at hv
            obtain rfl : q0.dropWhile (L.expired now) = q := by injection hv
            refine ⟨hd, ?_⟩
            rw [List.chain'_iff_pairwise]
            exact (List.chain'_iff_pairwise.mp (hinv v q0 hu).2).sublist
              (List.dropWhile_sublist _)
    · rw [cleanup_window_apply_ne L st u now v hvu] at hv
      exact hinv v q hv
  · intro v q hv t ht
    by_cases hvu : v = u
    · subst hvu
      cases hu : st v with
      | none =>
          rw [cleanup_window_of_none L st v now hu, hu] at hv
          exact Option.noConfusion hv
      | some q0 =>
          rw [cleanup_window_of_some L st v now q0 hu] at hv
          by_cases hd : q0.dropWhile (L.expired now) = []
          · rw [if_pos hd, updateSW_self] at hv
            exact Option.noConfusion hv
          · rw [if_neg hd, updateSW_self] at hv
            obtain rfl : q0.dropWhile (L.expired now) = q := by injection hv
            exact hup v q0 hu t ((List.dropWhile_sublist _).subset ht)
    · rw [cleanup_window_apply_ne L st u now v hvu] at hv
      exact hup v q hv t ht
  · intro q hv t ht
    cases hu : st u with
    | none =>
        rw [cleanup_window_of_none L st u now hu, hu] at hv
        exact Option.noConfusion hv
    | some q0 =>
        rw [cleanup_window_of_some L st u now q0 hu] at hv
        by_cases hd : q0.dropWhile (L.expired now) = []
        · rw [if_pos hd, updateSW_self] at hv
          exact Option.noConfusion hv
        · rw [if_neg hd, updateSW_self] at hv
          obtain rfl : q0.dropWhile (L.expired now) = q := by injection hv
          exact fresh_of_mem_dropWhile L now q0
            (List.chain'_iff_pairwise.mp (hinv u q0 hu).2) t ht

theorem record_message_props (L : SlidingWindowRateLimiter) (st : SWState)
    (u : String) (now : ℚ) (hW : 0 < L.window_size)
    (hinv : SWInv st) (hup : SWUpto st now) :
    SWInv (L.record_message st u now).2 ∧
    SWUpto (L.record_message st u now).2 now ∧
    (∀ q, (L.record_message st u now).2 u = some q →
      ∀ t ∈ q, now - L.window_size < t) := by
  obtain ⟨ci, cu, cf⟩ := cleanup_window_props L st u now hinv hup
  by_cases hc : (L.can_send_message st u now).1
  · rw [record_message_of_accept L st u now hc]
    dsimp only
    have hq2 : ((L.cleanup_window st u now u).getD []).Pairwise (· ≤ ·) ∧
        (∀ t ∈ (L.cleanup_window st u now u).getD [], t ≤ now) ∧
        (∀ t ∈ (L.cleanup_window st u now u).getD [],
          now - L.window_size < t) := by
      cases h2 : L.cleanup_window st u now u with
      | none => simp
      | some qq =>
          simp only [Option.getD_some]
          exact ⟨List.chain'_iff_pairwise.mp (ci u qq h2).2,
            cu u qq h2, cf qq h2⟩
    obtain ⟨hpw2, hup2, hfr2⟩ := hq2
    have hmem : ∀ t ∈ (L.cleanup_window st u now u).getD [] ++ [now],
        (t ∈ (L.cleanup_window st u now u).getD [] ∨ t = now) := by
      intro t ht
      rcases List.mem_append.mp ht with h | h
      · exact Or.inl h
      · exact Or.inr (List.mem_singleton.mp h)
    refine ⟨?_, ?_, ?_⟩
    · intro v q hv
      by_cases hvu : v = u
      · subst hvu
        rw [updateSW_self] at hv
        obtain rfl : (L.cleanup_window st v now v).getD [] ++ [now] = q := by
          injection hv
        refine ⟨by simp, ?_⟩
        rw [List.chain'_iff_pairwise, List.pairwise_append]
        refine ⟨hpw2, List.pairwise_singleton _ _, ?_⟩
        intro a ha b hb
        rw [List.mem_singleton.mp hb]
        exact hup2 a ha
      · rw [updateSW_ne _ _ _ _ hvu] at hv
        exact ci v q hv
    · intro v q hv t ht
      by_cases hvu : v = u
      · subst hvu
        rw [updateSW_self] at hv
        obtain rfl : (L.cleanup_window st v now v).getD [] ++ [now] = q := by
          injection hv
        rcases hmem t ht with h | rfl
        · exact hup2 t h
        · exact le_refl t
      · rw [updateSW_ne _ _ _ _ hvu] at hv
        exact cu v q hv t ht
    · intro q hv t ht
      rw [updateSW_self] at hv
      obtain rfl : (L.cleanup_window st u now u).getD [] ++ [now] = q := by
        injection hv
      rcases hmem t ht with h | rfl
      · exact hfr2 t h
      · linarith
  · rw [record_message_of_reject L st u now (by simpa using hc)]
    exact ⟨ci, cu, cf⟩

end SlidingWindowRateLimiter

/-! ### Claim theorems -/

/-- Claim C1: for a `SlidingWindowRateLimiter` with `max_requests = N ≥ 1`,
if exactly `N` records for one user are accepted at times all within one
trailing window of length `window_size` (starting from a state with no
entry for that user), then an `(N+1)`-th record at any time still within
`window_size` of the first is rejected, while a record at a time at least
`window_size` after the first (the first timestamp then expired, boundary
`<=`) is accepted. -/
theorem C1_sliding_window_limit (L : SlidingWindowRateLimiter) (st : SWState)
    (u : String) (t1 : ℚ) (rest : List ℚ)
    (hu : st u = none)
    (hlen : (((t1 :: rest).length : ℤ)) = L.max_requests)
    (hsort : (t1 :: rest).Chain' (· ≤ ·))
    (hspan : ∀ t ∈ t1 :: rest, t - t1 < L.window_size)
    (tR tA : ℚ)
    (hR : tR - t1 < L.window_size)
    (hA : L.window_size ≤ tA - t1) :
    (L.recordList st u (t1 :: rest)).1 =
      List.replicate (t1 :: rest).length true ∧
    (L.record_message (L.recordList st u (t1 :: rest)).2 u tR).1 = false ∧
    (L.record_message (L.recordList st u (t1 :: rest)).2 u tA).1 = true := by
  have hpw : (t1 :: rest).Pairwise (· ≤ ·) := List.chain'_iff_pairwise.mp hsort
  have hhead : ∀ t ∈ t1 :: rest, t1 ≤ t := by
    intro t ht
    rcases List.mem_cons.mp ht with rfl | hm
    · exact le_refl t
    · exact (List.pairwise_cons.mp hpw).1 t hm
  have hfresh : ∀ s ∈ t1 :: rest, ∀ t ∈ ([] : List ℚ) ++ t1 :: rest,
      L.expired s t = false := by
    intro s hs t ht
    rw [List.nil_append] at ht
    rw [SlidingWindowRateLimiter.expired_eq_false_iff]
    have h1 : s - t1 < L.window_size := hspan s hs
    have h2 : t1 ≤ t := hhead t ht
    linarith
  obtain ⟨h1, h2, _⟩ :=
    SlidingWindowRateLimiter.recordList_fills L u (t1 :: rest) st []
      (by simpa using hu) (by simpa using hpw) hfresh
      (by
        have hl := hlen
        simp only [List.length_nil, Int.Nat.cast_ofNat_Int, zero_add]
        omega)
  have hat : (L.recordList st u (t1 :: rest)).2 u = some (t1 :: rest) := by
    simpa using h2
  have hcanR : (L.can_send_message (L.recordList st u (t1 :: rest)).2 u tR).1 =
      false := by
    rw [SlidingWindowRateLimiter.can_send_message_fst, hat]
    simp only [Option.getD_some]
    simp only [List.dropWhile_cons_of_neg
        (show ¬(L.expired tR t1 = true) by
          simp [SlidingWindowRateLimiter.expired_eq_true_iff]; linarith)]
    simp only [decide_eq_false_iff_not, not_lt]
    omega
  have hcanA : (L.can_send_message (L.recordList st u (t1 :: rest)).2 u tA).1 =
      true := by
    rw [SlidingWindowRateLimiter.can_send_message_fst, hat]
    simp only [Option.getD_some]
    simp only [List.dropWhile_cons_of_pos
        (show L.expired tA t1 = true by
          rw [SlidingWindowRateLimiter.expired_eq_true_iff]; linarith)]
    simp only [decide_eq_true_eq]
    have hle : (List.dropWhile (L.expired tA) rest).length ≤ rest.length :=
      (List.dropWhile_sublist _).length_le
    simp only [List.length_cons] at hlen
    omega
  exact ⟨h1,
    by rw [SlidingWindowRateLimiter.record_message_fst, hcanR],
    by rw [SlidingWindowRateLimiter.record_message_fst, hcanA]⟩

/-- Claim C2: for a `ThrottlingRateLimiter` with `min_interval = M`, a
record is accepted exactly when the user has no stored timestamp or
`now - last ≥ M`; in particular, after an accepted record at `t0`, a
record at `t0 + M` (inclusive boundary) succeeds and a record at
`t0 + d` with `d < M` is rejected. -/
theorem C2_throttling_exact (M : ℚ) (st : ThState) (u : String) (t0 d : ℚ)
    (hacc : ((ThrottlingRateLimiter.init M).record_message st u t0).1 = true)
    (hd : d < M) :
    (∀ (st' : ThState) (now : ℚ),
        (((ThrottlingRateLimiter.init M).record_message st' u now).1 = true ↔
          st' u = none ∨ ∃ t, st' u = some t ∧ M ≤ now - t)) ∧
    ((ThrottlingRateLimiter.init M).record_message
        ((ThrottlingRateLimiter.init M).record_message st u t0).2 u
        (t0 + M)).1 = true ∧
    ((ThrottlingRateLimiter.init M).record_message
        ((ThrottlingRateLimiter.init M).record_message st u t0).2 u
        (t0 + d)).1 = false := by
  set L : ThrottlingRateLimiter := ThrottlingRateLimiter.init M with hL
  have hiff : ∀ (st' : ThState) (now : ℚ),
      ((L.record_message st' u now).1 = true ↔
        st' u = none ∨ ∃ t, st' u = some t ∧ M ≤ now - t) := by
    intro st' now
    rw [ThrottlingRateLimiter.th_record_fst,
      ThrottlingRateLimiter.th_can_send_fst]
    cases hu : st' u with
    | none => simp
    | some t => simp [hL, ThrottlingRateLimiter.init]
  have hstate : (L.record_message st u t0).2 u = some t0 := by
    have hcan : (L.can_send_message st u t0).1 = true := by
      rw [← ThrottlingRateLimiter.th_record_fst]; exact hacc
    rw [ThrottlingRateLimiter.th_record_of_accept L st u t0 hcan]
    exact updateTh_self st u (some t0)
  refine ⟨hiff, ?_, ?_⟩
  · rw [hiff]
    exact Or.inr ⟨t0, hstate, by linarith⟩
  · rw [Bool.eq_false_iff]
    intro hcontra
    rcases (hiff _ _).mp hcontra with hnone | ⟨t, htt, hge⟩
    · rw [hstate] at hnone; exact Option.noConfusion hnone
    · rw [hstate] at htt
      have ht0 : t0 = t := by injection htt
      subst ht0
      linarith

/-- Claim C3: a rejected `record_message` performs no mutation beyond
the cleanup already done by `can_send_message`: the sliding-window state
after a rejected record equals the state after `_cleanup_window` alone,
and the throttling state after a rejected record is unchanged. -/
theorem C3_reject_no_mutation (L : SlidingWindowRateLimiter)
    (T : ThrottlingRateLimiter) (stw : SWState) (stt : ThState)
    (u v : String) (now m : ℚ)
    (hw : (L.record_message stw u now).1 = false)
    (ht : (T.record_message stt v m).1 = false) :
    (L.record_message stw u now).2 = L.cleanup_window stw u now ∧
    (T.record_message stt v m).2 = stt := by
  constructor
  · have hcan : (L.can_send_message stw u now).1 = false := by
      rw [← SlidingWindowRateLimiter.record_message_fst]; exact hw
    rw [SlidingWindowRateLimiter.record_message_of_reject L stw u now hcan]
  · have hcan : (T.can_send_message stt v m).1 = false := by
      rw [← ThrottlingRateLimiter.th_record_fst]; exact ht
    rw [ThrottlingRateLimiter.th_record_of_reject T stt v m hcan]

/-- Claim C4: under a non-decreasing clock (all stored timestamps at most
`now`), every sliding-window operation preserves the state invariant:
stored deques are nonempty and non-decreasing (an emptied user key is
eagerly deleted), timestamps stay bounded by `now`, and after the
operation's cleanup every timestamp kept for the touched user is strictly
inside the window (`t > now - window_size`); `time_until_next_allowed`
leaves the state untouched. -/
theorem C4_invariants_preserved (L : SlidingWindowRateLimiter)
    (hW : 0 < L.window_size) (st : SWState) (now : ℚ) (u : String)
    (hinv : SWInv st) (hup : SWUpto st now) :
    (SWInv (L.can_send_message st u now).2 ∧
      SWUpto (L.can_send_message st u now).2 now ∧
      (∀ q, (L.can_send_message st u now).2 u = some q →
        ∀ t ∈ q, now - L.window_size < t)) ∧
    (SWInv (L.record_message st u now).2 ∧
      SWUpto (L.record_message st u now).2 now ∧
      (∀ q, (L.record_message st u now).2 u = some q →
        ∀ t ∈ q, now - L.window_size < t)) ∧
    (L.time_until_next_allowed st u now).2 = st := by
  refine ⟨?_, ?_, ?_⟩
  · rw [SlidingWindowRateLimiter.can_send_message_snd]
    exact SlidingWindowRateLimiter.cleanup_window_props L st u now hinv hup
  · exact SlidingWindowRateLimiter.record_message_props L st u now hW hinv hup
  · exact SlidingWindowRateLimiter.time_until_next_allowed_snd L st u now

/-- Claim C5: `time_until_next_allowed` is non-negative and equals: for
the sliding window, `0` when the user has no stored timestamps and
`max 0 (window_size - (now - oldest))` otherwise (under the sortedness
invariant the front of the deque is the oldest entry); for the
throttling limiter, `0` when the user was never recorded and
`max 0 (min_interval - (now - last))` otherwise. -/
theorem C5_wait_formula (L : SlidingWindowRateLimiter)
    (T : ThrottlingRateLimiter) (stw : SWState) (stt : ThState)
    (u : String) (now : ℚ) :
    (stw u = none ∨ stw u = some [] →
      (L.time_until_next_allowed stw u now).1 = 0) ∧
    (∀ t0 q0, stw u = some (t0 :: q0) →
      (L.time_until_next_allowed stw u now).1 =
        max 0 (L.window_size - (now - t0)) ∧
      ((t0 :: q0).Chain' (· ≤ ·) → ∀ t ∈ t0 :: q0, t0 ≤ t)) ∧
    0 ≤ (L.time_until_next_allowed stw u now).1 ∧
    (stt u = none → (T.time_until_next_allowed stt u now).1 = 0) ∧
    (∀ t, stt u = some t →
      (T.time_until_next_allowed stt u now).1 =
        max 0 (T.min_interval - (now - t))) ∧
    0 ≤ (T.time_until_next_allowed stt u now).1 := by
  refine ⟨?_, ?_, ?_, ?_, ?_, ?_⟩
  · intro h
    rcases h with h | h <;>
      simp [SlidingWindowRateLimiter.time_until_next_allowed, h]
  · intro t0 q0 h
    refine ⟨by simp [SlidingWindowRateLimiter.time_until_next_allowed, h], ?_⟩
    intro hch t ht
    have hpw := List.chain'_iff_pairwise.mp hch
    rcases List.mem_cons.mp ht with rfl | hm
    · exact le_refl t
    · exact (List.pairwise_cons.mp hpw).1 t hm
  · unfold SlidingWindowRateLimiter.time_until_next_allowed
    cases h : stw u with
    | none => exact le_refl 0
    | some q => cases q with
      | nil => exact le_refl 0
      | cons t0 q0 => exact le_max_left 0 _
  · intro h
    simp [ThrottlingRateLimiter.time_until_next_allowed, h]
  · intro t h
    simp [ThrottlingRateLimiter.time_until_next_allowed, h]
  · unfold ThrottlingRateLimiter.time_until_next_allowed
    cases h : stt u with
    | none => exact le_refl 0
    | some t => exact le_max_left 0 _

/-- Claim C6 (code behavior at the claim's failing inputs): both
constructors store their parameters without any validation and always
succeed; in particular `SlidingWindowRateLimiter(window_size=10,
max_requests=0)` is constructed and the resulting limiter rejects every
`record_message` forever (permanent denial), and a negative
`min_interval` or `window_size` is likewise accepted at construction. -/
theorem C6_no_construction_validation :
    SlidingWindowRateLimiter.init 10 0 =
      { window_size := 10, max_requests := 0 } ∧
    SlidingWindowRateLimiter.init (-5) 1 =
      { window_size := -5, max_requests := 1 } ∧
    ThrottlingRateLimiter.init (-1) = { min_interval := -1 } ∧
    (∀ (st : SWState) (u : String) (now : ℚ),
      ((SlidingWindowRateLimiter.init 10 0).record_message st u now).1 =
        false) := by
  refine ⟨rfl, rfl, rfl, ?_⟩
  intro st u now
  rw [SlidingWindowRateLimiter.record_message_fst,
    SlidingWindowRateLimiter.can_send_message_fst]
  simp only [decide_eq_false_iff_not, not_lt]
  exact Int.ofNat_nonneg _

namespace SlidingWindowRateLimiter

theorem recordList_apply_ne (L : SlidingWindowRateLimiter) (u : String)
    (v : String) (h : v ≠ u) :
    ∀ (ts : List ℚ) (st : SWState), (L.recordList st u ts).2 v = st v := by
  intro ts
  induction ts with
  | nil => intro st; rfl
  | cons s ts ih =>
      intro st
      show (L.recordList (L.record_message st u s).2 u ts).2 v = st v
      rw [ih, record_message_apply_ne L st u s v h]

theorem can_send_message_fst_congr (L : SlidingWindowRateLimiter)
    (st1 st2 : SWState) (u : String) (now : ℚ) (h : st1 u = st2 u) :
    (L.can_send_message st1 u now).1 = (L.can_send_message st2 u now).1 := by
  rw [can_send_message_fst, can_send_message_fst, h]

theorem prune_cleanup (L : SlidingWindowRateLimiter) (st : SWState)
    (u : String) (now : ℚ) :
    ((L.cleanup_window st u now u).getD []).dropWhile (L.expired now) =
      ((st u).getD []).dropWhile (L.expired now) := by
  rw [cleanup_window_apply_self]
  cases hu : st u with
  | none => simp
  | some q =>
      by_cases hd : q.dropWhile (L.expired now) = []
      · simp [hd]
      · simp [hd, dropWhile_dropWhile]

end SlidingWindowRateLimiter

namespace ThrottlingRateLimiter

theorem th_recordList_apply_ne (T : ThrottlingRateLimiter) (u : String)
    (v : String) (h : v ≠ u) :
    ∀ (ts : List ℚ) (st : ThState), (T.recordList st u ts).2 v = st v := by
  intro ts
  induction ts with
  | nil => intro st; rfl
  | cons s ts ih =>
      intro st
      show (T.recordList (T.record_message st u s).2 u ts).2 v = st v
      rw [ih, th_record_apply_ne T st u s v h]

theorem th_can_send_fst_congr (T : ThrottlingRateLimiter)
    (st1 st2 : ThState) (u : String) (now : ℚ) (h : st1 u = st2 u) :
    (T.can_send_message st1 u now).1 = (T.can_send_message st2 u now).1 := by
  rw [th_can_send_fst, th_can_send_fst, h]

theorem th_time_until_snd (T : ThrottlingRateLimiter)
    (st : ThState) (u : String) (now : ℚ) :
    (T.time_until_next_allowed st u now).2 = st := by
  unfold time_until_next_allowed
  cases h : st u <;> rfl

end ThrottlingRateLimiter

/-- Claim C7: recording any sequence of events for identity `A` (with
either limiter) leaves identity `B`'s stored state untouched and the
outcome of `can_send_message` for `B` unchanged. -/
theorem C7_identity_independence (L : SlidingWindowRateLimiter)
    (T : ThrottlingRateLimiter) (stw : SWState) (stt : ThState)
    (A B : String) (hAB : B ≠ A) (ts : List ℚ) (now : ℚ) :
    (L.recordList stw A ts).2 B = stw B ∧
    (L.can_send_message (L.recordList stw A ts).2 B now).1 =
      (L.can_send_message stw B now).1 ∧
    (T.recordList stt A ts).2 B = stt B ∧
    (T.can_send_message (T.recordList stt A ts).2 B now).1 =
      (T.can_send_message stt B now).1 := by
  have h1 := SlidingWindowRateLimiter.recordList_apply_ne L A B hAB ts stw
  have h3 := ThrottlingRateLimiter.th_recordList_apply_ne T A B hAB ts stt
  exact ⟨h1,
    SlidingWindowRateLimiter.can_send_message_fst_congr L _ _ B now h1,
    h3,
    ThrottlingRateLimiter.th_can_send_fst_congr T _ _ B now h3⟩

/-- Claim C8: with a fixed state (no new accepted events), the wait
reported by `time_until_next_allowed` never increases as the query time
advances, and it is exactly `0` once the freeing moment (oldest
timestamp plus `window_size`, or last timestamp plus `min_interval`) has
been reached. -/
theorem C8_monotone_recovery (L : SlidingWindowRateLimiter)
    (T : ThrottlingRateLimiter) (stw : SWState) (stt : ThState)
    (u : String) (n1 n2 : ℚ) (h12 : n1 ≤ n2) :
    (L.time_until_next_allowed stw u n2).1 ≤
      (L.time_until_next_allowed stw u n1).1 ∧
    (T.time_until_next_allowed stt u n2).1 ≤
      (T.time_until_next_allowed stt u n1).1 ∧
    (∀ t0 q0, stw u = some (t0 :: q0) → t0 + L.window_size ≤ n2 →
      (L.time_until_next_allowed stw u n2).1 = 0) ∧
    (∀ t, stt u = some t → t + T.min_interval ≤ n2 →
      (T.time_until_next_allowed stt u n2).1 = 0) := by
  refine ⟨?_, ?_, ?_, ?_⟩
  · unfold SlidingWindowRateLimiter.time_until_next_allowed
    cases h : stw u with
    | none => exact le_refl 0
    | some q => cases q with
      | nil => exact le_refl 0
      | cons t0 q0 => exact max_le_max (le_refl 0) (by linarith)
  · unfold ThrottlingRateLimiter.time_until_next_allowed
    cases h : stt u with
    | none => exact le_refl 0
    | some t => exact max_le_max (le_refl 0) (by linarith)
  · intro t0 q0 h hfree
    simp only [SlidingWindowRateLimiter.time_until_next_allowed, h]
    exact max_eq_left (by linarith)
  · intro t h hfree
    simp only [ThrottlingRateLimiter.time_until_next_allowed, h]
    exact max_eq_left (by linarith)

/-- Claim C9: `can_send_message` is idempotent at a fixed time: calling
it again right away returns the same boolean, and the second call makes
no state change beyond the pruning the first call already did (for the
throttling limiter the state is not touched at all). -/
theorem C9_idempotent_check (L : SlidingWindowRateLimiter)
    (T : ThrottlingRateLimiter) (stw : SWState) (stt : ThState)
    (u : String) (now : ℚ) :
    L.can_send_message (L.can_send_message stw u now).2 u now =
      L.can_send_message stw u now ∧
    T.can_send_message (T.can_send_message stt u now).2 u now =
      T.can_send_message stt u now := by
  constructor
  · have hsnd : (L.can_send_message (L.can_send_message stw u now).2 u now).2 =
        (L.can_send_message stw u now).2 := by
      rw [SlidingWindowRateLimiter.can_send_message_snd,
        SlidingWindowRateLimiter.can_send_message_snd,
        SlidingWindowRateLimiter.cleanup_window_idem]
    have hfst : (L.can_send_message (L.can_send_message stw u now).2 u now).1 =
        (L.can_send_message stw u now).1 := by
      rw [SlidingWindowRateLimiter.can_send_message_fst,
        SlidingWindowRateLimiter.can_send_message_snd,
        SlidingWindowRateLimiter.prune_cleanup,
        ← SlidingWindowRateLimiter.can_send_message_fst]
    exact Prod.ext hfst hsnd
  · rw [ThrottlingRateLimiter.th_can_send_snd]

/-- Claim C10: `time_until_next_allowed` never mutates the stored state
in either limiter; in particular, for a user whose stored timestamps
have all expired but were never pruned, the sliding-window variant still
answers `0` while the stale deque stays in the dict — unlike
`can_send_message`, whose cleanup would delete that key. -/
theorem C10_wait_query_no_mutation (L : SlidingWindowRateLimiter)
    (T : ThrottlingRateLimiter) (stw : SWState) (stt : ThState)
    (u : String) (now : ℚ) (q : List ℚ)
    (hq : stw u = some q) (hne : q ≠ [])
    (hexp : ∀ t ∈ q, L.expired now t = true) :
    (L.time_until_next_allowed stw u now).2 = stw ∧
    (T.time_until_next_allowed stt u now).2 = stt ∧
    (L.time_until_next_allowed stw u now).1 = 0 ∧
    (L.time_until_next_allowed stw u now).2 u = some q ∧
    (L.can_send_message stw u now).2 u = none := by
  refine ⟨SlidingWindowRateLimiter.time_until_next_allowed_snd L stw u now,
    ThrottlingRateLimiter.th_time_until_snd T stt u now, ?_, ?_, ?_⟩
  · cases hql : q with
    | nil => exact absurd hql hne
    | cons t0 q0 =>
        rw [hql] at hq
        simp only [SlidingWindowRateLimiter.time_until_next_allowed, hq]
        have ht0 : t0 ≤ now - L.window_size := by
          rw [← SlidingWindowRateLimiter.expired_eq_true_iff L now t0]
          exact hexp t0 (by rw [hql]; exact List.mem_cons_self t0 q0)
        exact max_eq_left (by linarith)
  · rw [SlidingWindowRateLimiter.time_until_next_allowed_snd, hq]
  · rw [SlidingWindowRateLimiter.can_send_message_snd,
      SlidingWindowRateLimiter.cleanup_window_apply_self, hq]
    have hd : List.dropWhile (L.expired now) q = [] :=
      List.dropWhile_eq_nil_iff.mpr (by simpa using hexp)
    simp [hd]

/-! ### Witness instances -/

/-- Witness for C1: `window_size = 10`, `max_requests = 2`, records at
times `0` and `1`, a rejected attempt at `5` and an accepted one at `10`. -/
theorem C1_sliding_window_limit_witness :
    ((⟨10, 2⟩ : SlidingWindowRateLimiter).recordList emptySW "a"
        ((0 : ℚ) :: [1])).1 = List.replicate ((0 : ℚ) :: [1]).length true ∧
    ((⟨10, 2⟩ : SlidingWindowRateLimiter).record_message
        ((⟨10, 2⟩ : SlidingWindowRateLimiter).recordList emptySW "a"
          ((0 : ℚ) :: [1])).2 "a" 5).1 = false ∧
    ((⟨10, 2⟩ : SlidingWindowRateLimiter).record_message
        ((⟨10, 2⟩ : SlidingWindowRateLimiter).recordList emptySW "a"
          ((0 : ℚ) :: [1])).2 "a" 10).1 = true :=
  C1_sliding_window_limit ⟨10, 2⟩ emptySW "a" 0 [1] rfl (by norm_num)
    (by norm_num [List.chain'_cons])
    (by intro t ht; fin_cases ht <;> norm_num)
    5 10 (by norm_num) (by norm_num)

/-- Witness for C2: `min_interval = 10`, first record at `0`; a record
separated by exactly `10` succeeds, one separated by `9` fails, and the
acceptance condition holds for a fresh user at time `3`. -/
theorem C2_throttling_exact_witness :
    ((ThrottlingRateLimiter.init 10).record_message emptyTh "a" 3).1 = true ∧
    ((ThrottlingRateLimiter.init 10).record_message
        ((ThrottlingRateLimiter.init 10).record_message emptyTh "a" 0).2 "a"
        (0 + 10)).1 = true ∧
    ((ThrottlingRateLimiter.init 10).record_message
        ((ThrottlingRateLimiter.init 10).record_message emptyTh "a" 0).2 "a"
        (0 + 9)).1 = false := by
  have h := C2_throttling_exact 10 emptyTh "a" 0 9 rfl (by norm_num)
  exact ⟨(h.1 emptyTh 3).mpr (Or.inl rfl), h.2.1, h.2.2⟩

/-- Witness for C3: rejected records at time `0` against a user whose
quota is already used (sliding window) or whose last message was at `0`
(throttling). -/
theorem C3_reject_no_mutation_witness :
    ((⟨10, 1⟩ : SlidingWindowRateLimiter).record_message
        (fun v => if v = "a" then some [(0 : ℚ)] else none) "a" 0).2 =
      (⟨10, 1⟩ : SlidingWindowRateLimiter).cleanup_window
        (fun v => if v = "a" then some [(0 : ℚ)] else none) "a" 0 ∧
    ((⟨10⟩ : ThrottlingRateLimiter).record_message
        (fun v => if v = "a" then some (0 : ℚ) else none) "a" 0).2 =
      (fun v => if v = "a" then some (0 : ℚ) else none) :=
  C3_reject_no_mutation ⟨10, 1⟩ ⟨10⟩
    (fun v => if v = "a" then some [(0 : ℚ)] else none)
    (fun v => if v = "a" then some (0 : ℚ) else none) "a" "a" 0 0
    (by
      rw [SlidingWindowRateLimiter.record_message_fst,
        SlidingWindowRateLimiter.can_send_message_fst]
      norm_num [SlidingWindowRateLimiter.expired, List.dropWhile_cons])
    (by
      rw [ThrottlingRateLimiter.th_record_fst,
        ThrottlingRateLimiter.th_can_send_fst]
      norm_num)

/-- Witness for C4: the empty state at time `0` with `window_size = 10`,
`max_requests = 1`. -/
theorem C4_invariants_preserved_witness :
    (SWInv ((⟨10, 1⟩ : SlidingWindowRateLimiter).can_send_message emptySW
        "a" 0).2 ∧
      SWUpto ((⟨10, 1⟩ : SlidingWindowRateLimiter).can_send_message emptySW
        "a" 0).2 0 ∧
      (∀ q, ((⟨10, 1⟩ : SlidingWindowRateLimiter).can_send_message emptySW
          "a" 0).2 "a" = some q → ∀ t ∈ q, (0 : ℚ) - 10 < t)) ∧
    (SWInv ((⟨10, 1⟩ : SlidingWindowRateLimiter).record_message emptySW
        "a" 0).2 ∧
      SWUpto ((⟨10, 1⟩ : SlidingWindowRateLimiter).record_message emptySW
        "a" 0).2 0 ∧
      (∀ q, ((⟨10, 1⟩ : SlidingWindowRateLimiter).record_message emptySW
          "a" 0).2 "a" = some q → ∀ t ∈ q, (0 : ℚ) - 10 < t)) ∧
    ((⟨10, 1⟩ : SlidingWindowRateLimiter).time_until_next_allowed emptySW
      "a" 0).2 = emptySW :=
  C4_invariants_preserved ⟨10, 1⟩ (by norm_num) emptySW 0 "a"
    (fun _ _ h => Option.noConfusion h) (fun _ _ h => Option.noConfusion h)

/-- Witness for C5: the wait formulas evaluated at time `5` for an empty
state and for a user with one stored timestamp `2`. -/
theorem C5_wait_formula_witness :
    ((⟨10, 1⟩ : SlidingWindowRateLimiter).time_until_next_allowed emptySW
      "a" 5).1 = 0 ∧
    ((⟨10, 1⟩ : SlidingWindowRateLimiter).time_until_next_allowed
        (fun v => if v = "a" then some [(2 : ℚ)] else none) "a" 5).1 =
      max 0 (10 - (5 - 2)) ∧
    (2 : ℚ) ≤ 2 ∧
    ((⟨10⟩ : ThrottlingRateLimiter).time_until_next_allowed emptyTh
      "a" 5).1 = 0 ∧
    ((⟨10⟩ : ThrottlingRateLimiter).time_until_next_allowed
        (fun v => if v = "a" then some (2 : ℚ) else none) "a" 5).1 =
      max 0 (10 - (5 - 2)) ∧
    0 ≤ ((⟨10, 1⟩ : SlidingWindowRateLimiter).time_until_next_allowed
        (fun v => if v = "a" then some [(2 : ℚ)] else none) "a" 5).1 := by
  have h0 := C5_wait_formula ⟨10, 1⟩ ⟨10⟩ emptySW emptyTh "a" 5
  have h1 := C5_wait_formula ⟨10, 1⟩ ⟨10⟩
    (fun v => if v = "a" then some [(2 : ℚ)] else none)
    (fun v => if v = "a" then some (2 : ℚ) else none) "a" 5
  exact ⟨h0.1 (Or.inl rfl), (h1.2.1 2 [] (by simp)).1,
    (h1.2.1 2 [] (by simp)).2 (List.chain'_singleton 2) 2 (by simp),
    h0.2.2.2.1 rfl, h1.2.2.2.2.1 2 (by simp), h1.2.2.1⟩

/-- Witness for C7: two records for user `a` never disturb user `b`. -/
theorem C7_identity_independence_witness :
    ((⟨10, 1⟩ : SlidingWindowRateLimiter).recordList emptySW "a"
        [(0 : ℚ), 1]).2 "b" = emptySW "b" ∧
    ((⟨10, 1⟩ : SlidingWindowRateLimiter).can_send_message
        ((⟨10, 1⟩ : SlidingWindowRateLimiter).recordList emptySW "a"
          [(0 : ℚ), 1]).2 "b" 3).1 =
      ((⟨10, 1⟩ : SlidingWindowRateLimiter).can_send_message emptySW
        "b" 3).1 ∧
    ((⟨10⟩ : ThrottlingRateLimiter).recordList emptyTh "a"
        [(0 : ℚ), 1]).2 "b" = emptyTh "b" ∧
    ((⟨10⟩ : ThrottlingRateLimiter).can_send_message
        ((⟨10⟩ : ThrottlingRateLimiter).recordList emptyTh "a"
          [(0 : ℚ), 1]).2 "b" 3).1 =
      ((⟨10⟩ : ThrottlingRateLimiter).can_send_message emptyTh "b" 3).1 :=
  C7_identity_independence ⟨10, 1⟩ ⟨10⟩ emptySW emptyTh "a" "b" (by simp)
    [(0 : ℚ), 1] 3

/-- Witness for C8: a user with one timestamp `0`, window and interval
`10`, queried at times `10` and `12`. -/
theorem C8_monotone_recovery_witness :
    ((⟨10, 1⟩ : SlidingWindowRateLimiter).time_until_next_allowed
        (fun v => if v = "a" then some [(0 : ℚ)] else none) "a" 12).1 ≤
      ((⟨10, 1⟩ : SlidingWindowRateLimiter).time_until_next_allowed
        (fun v => if v = "a" then some [(0 : ℚ)] else none) "a" 10).1 ∧
    ((⟨10⟩ : ThrottlingRateLimiter).time_until_next_allowed
        (fun v => if v = "a" then some (0 : ℚ) else none) "a" 12).1 ≤
      ((⟨10⟩ : ThrottlingRateLimiter).time_until_next_allowed
        (fun v => if v = "a" then some (0 : ℚ) else none) "a" 10).1 ∧
    ((⟨10, 1⟩ : SlidingWindowRateLimiter).time_until_next_allowed
        (fun v => if v = "a" then some [(0 : ℚ)] else none) "a" 12).1 = 0 ∧
    ((⟨10⟩ : ThrottlingRateLimiter).time_until_next_allowed
        (fun v => if v = "a" then some (0 : ℚ) else none) "a" 12).1 = 0 := by
  have h := C8_monotone_recovery ⟨10, 1⟩ ⟨10⟩
    (fun v => if v = "a" then some [(0 : ℚ)] else none)
    (fun v => if v = "a" then some (0 : ℚ) else none) "a" 10 12 (by norm_num)
  exact ⟨h.1, h.2.1, h.2.2.1 0 [] (by simp) (by norm_num),
    h.2.2.2 0 (by simp) (by norm_num)⟩

/-- Witness for C10: a user whose single stored timestamp `0` has
expired by time `15` yet was never pruned. -/
theorem C10_wait_query_no_mutation_witness :
    ((⟨10, 1⟩ : SlidingWindowRateLimiter).time_until_next_allowed
        (fun v => if v = "a" then some [(0 : ℚ)] else none) "a" 15).2 =
      (fun v => if v = "a" then some [(0 : ℚ)] else none) ∧
    ((⟨10⟩ : ThrottlingRateLimiter).time_until_next_allowed
        (fun v => if v = "a" then some (0 : ℚ) else none) "a" 15).2 =
      (fun v => if v = "a" then some (0 : ℚ) else none) ∧
    ((⟨10, 1⟩ : SlidingWindowRateLimiter).time_until_next_allowed
        (fun v => if v = "a" then some [(0 : ℚ)] else none) "a" 15).1 = 0 ∧
    ((⟨10, 1⟩ : SlidingWindowRateLimiter).time_until_next_allowed
        (fun v => if v = "a" then some [(0 : ℚ)] else none) "a" 15).2 "a" =
      some [(0 : ℚ)] ∧
    ((⟨10, 1⟩ : SlidingWindowRateLimiter).can_send_message
        (fun v => if v = "a" then some [(0 : ℚ)] else none) "a" 15).2 "a" =
      none :=
  C10_wait_query_no_mutation ⟨10, 1⟩ ⟨10⟩
    (fun v => if v = "a" then some [(0 : ℚ)] else none)
    (fun v => if v = "a" then some (0 : ℚ) else none) "a" 15 [0]
    (by simp) (by simp)
    (by
      intro t ht
      fin_cases ht
      norm_num [SlidingWindowRateLimiter.expired])

end Task02
